import Mathlib

/-!
Shallow embedding of the order-creation core of the microservices-go
project: the order service `CreateOrder` / `ListUserOrders`
(internal/orderservice/service/order_service.go) and the product
repository `UpdateStock`
(internal/productservice/repository/product_repository.go).

Remote services are modelled by a `World` record: the user validator's
answer, the product catalog (the product service's database), and
failure-injection flags for transport and storage errors.  The fan-out
goroutines of `CreateOrder` are serialized in launch order (each
goroutine's body runs under one mutex in the source, so any interleaving
is a permutation of these atomic bodies; launch order is the canonical
one).  Go's `int32`/`int` arithmetic wraps on overflow, which we model
with explicit `wrap32` / `wrap64`.
-/

namespace MicroGo

/-- Two's-complement wrap-around of Go `int32` arithmetic. -/
def wrap32 (x : Int) : Int := (x + 2147483648) % 4294967296 - 2147483648

/-- Two's-complement wrap-around of Go `int` (64-bit) arithmetic. -/
def wrap64 (x : Int) : Int := (x + 9223372036854775808) % 18446744073709551616 - 9223372036854775808

/-- `model.Product` (id, price, stock; timestamps and description omitted:
no claim mentions them).  `price` is Go `float64`; modelled as `ℚ` — every
equation we prove performs the same operations in the same order on both
sides, so it is insensitive to the arithmetic's rounding. -/
structure Product where
  id : String
  price : ℚ
  stockQuantity : Int
deriving DecidableEq, Repr

/-- `model.OrderItem` (row ids and timestamps omitted). -/
structure OrderItem where
  productID : String
  quantity : Int
  priceAtPurchase : ℚ
deriving DecidableEq, Repr

/-- `model.OrderStatus`. -/
inductive OrderStatus
  | pending
  | processing
  | completed
  | cancelled
deriving DecidableEq, Repr

/-- `model.Order` (id and timestamps, assigned by the repository, omitted). -/
structure Order where
  userID : String
  items : List OrderItem
  totalAmount : ℚ
  status : OrderStatus
deriving DecidableEq, Repr

/-- The sentinel errors of the order service plus the repository error
returned raw by `CreateOrder` when persistence fails. -/
inductive OrderErr
  | invalidOrderData
  | userValidationFailed
  | productFetchFailed
  | productStockUpdateFailed
  | insufficientStockForOrder
  | processItemsFailed
  | storageError
deriving DecidableEq, Repr

/-! ## Product repository: `UpdateStock` -/

/-- Errors of `ProductRepository.UpdateStock`. -/
inductive StockErr
  | productNotFound
  | insufficientStock
  | storageError
deriving DecidableEq, Repr

/-- Injected database failure for one `UpdateStock` transaction: which
step of the transaction errors, if any. -/
inductive TxFail
  | noFail
  | failBegin
  | failSelect
  | failExec
  | failCommit
deriving DecidableEq, Repr

/-- `SELECT ... FROM products WHERE id = $1` (first row with this id). -/
def findProduct : List Product → String → Option Product
  | [], _ => none
  | p :: rest, productID => if p.id = productID then some p else findProduct rest productID

/-- `ProductRepository.UpdateStock`: inside one DB transaction, read the
row, compute `newStock := stock + quantityChange` (Go `int32` addition,
hence wrapped), reject negative results with `InsufficientStock`, write
back and commit.  Any error path rolls the transaction back, so the
returned database equals the input one on every error. -/
def UpdateStock (tf : TxFail) (db : List Product) (productID : String) (quantityChange : Int) :
    Except StockErr Product × List Product :=
  if tf = .failBegin then (.error .storageError, db)
  else if tf = .failSelect then (.error .storageError, db)
  else
    match findProduct db productID with
    | none => (.error .productNotFound, db)
    | some p =>
      let newStock := wrap32 (p.stockQuantity + quantityChange)
      if newStock < 0 then (.error .insufficientStock, db)
      else if tf = .failExec then (.error .storageError, db)
      else if tf = .failCommit then (.error .storageError, db)
      else
        let p2 : Product := { p with stockQuantity := newStock }
        (.ok p2, db.map fun q => if q.id = productID then p2 else q)

/-! ## The world seen by the order service -/

/-- A failed gRPC call: `codes.NotFound` or any other transport error. -/
inductive GrpcFail
  | notFound
  | unavailable
deriving DecidableEq, Repr

/-- The remote environment of one `CreateOrder` / `ListUserOrders` call:
the validator's answer for the requested user, the product service's
database, and failure injections for the product fetches, the stock
updates and the order repository. -/
structure World where
  userAnswer : Option GrpcFail
  catalog : List Product
  fetchFail : String → Bool
  updFail : String → Bool
  repoFail : Bool

/-- The product service's `GetProduct` as seen over gRPC: a transport
failure if injected, otherwise the catalog row or `NotFound`. -/
def getProduct (w : World) (productID : String) : Except GrpcFail Product :=
  if w.fetchFail productID then .error .unavailable
  else
    match findProduct w.catalog productID with
    | some p => .ok p
    | none => .error .notFound

/-- Remote calls issued during one `CreateOrder` call, in order. -/
structure Trace where
  validatorCalls : Nat
  getProductCalls : Nat
  updateStockCalls : List (String × Int)
  repoCreateCalls : Nat
  tasksLaunched : Nat
deriving DecidableEq, Repr

def emptyTrace : Trace :=
  { validatorCalls := 0, getProductCalls := 0, updateStockCalls := [], repoCreateCalls := 0,
    tasksLaunched := 0 }

/-! ## `CreateOrder`: fan-out read phase -/

/-- The mutex-protected shared state of the fan-out phase, plus the two
counters `getProductCalls` (fetches issued) and `tasksLaunched`
(goroutines started, one `wg.Add(1)` each). -/
structure ReadState where
  firstError : Option OrderErr
  totalAmount : ℚ
  processedItems : List OrderItem
  stockUpdates : List (String × Int)
  getProductCalls : Nat
  tasksLaunched : Nat
deriving Repr

def initReadState : ReadState :=
  { firstError := none, totalAmount := 0, processedItems := [], stockUpdates := [],
    getProductCalls := 0, tasksLaunched := 0 }

/-- Go map read `m[k]` with the zero default. -/
def lookupDelta : List (String × Int) → String → Int
  | [], _ => 0
  | e :: rest, k => if e.1 = k then e.2 else lookupDelta rest k

/-- Go map write `m[k] = v` (observationally: replace the binding or add
one). -/
def setDelta : List (String × Int) → String → Int → List (String × Int)
  | [], k, v => [(k, v)]
  | e :: rest, k, v => if e.1 = k then (k, v) :: rest else e :: setDelta rest k v

/-- `productStockUpdates[product.Id] -= currentItem.Quantity`: an `int32`
map-entry decrement, so the running value wraps. -/
def mapSub (l : List (String × Int)) (k : String) (q : Int) : List (String × Int) :=
  setDelta l k (wrap32 (lookupDelta l k - q))

/-- Body of one fan-out goroutine (the source runs the whole body under
the shared mutex around each of its critical sections; serialized, it is
one atomic step).  It skips all work when another task already recorded
an error, otherwise fetches the product, checks the snapshot stock
against this line item's quantity, and on success accumulates the
running total, the processed item (with the snapshot price as
`priceAtPurchase`) and the per-product stock delta. -/
def fanOutTask (w : World) (st : ReadState) (item : OrderItem) : ReadState :=
  if st.firstError.isSome then st
  else
    match getProduct w item.productID with
    | .error _ =>
      { st with getProductCalls := st.getProductCalls + 1,
                firstError := some .productFetchFailed }
    | .ok product =>
      if product.stockQuantity < item.quantity then
        { st with getProductCalls := st.getProductCalls + 1,
                  firstError := some .insufficientStockForOrder }
      else
        { st with
          getProductCalls := st.getProductCalls + 1,
          totalAmount := st.totalAmount + product.price * (item.quantity : ℚ),
          processedItems := st.processedItems ++
            [{ productID := product.id, quantity := item.quantity,
               priceAtPurchase := product.price }],
          stockUpdates := mapSub st.stockUpdates product.id item.quantity }

/-- The fan-out loop: for each requested item, the nonpositive-quantity
guard runs in the main goroutine and returns `ErrInvalidOrderData` at
once (flagged by the second component), otherwise `wg.Add(1)` launches
the task.  Tasks are serialized in launch order. -/
def fanOutLoop (w : World) : List OrderItem → ReadState → ReadState × Bool
  | [], st => (st, false)
  | item :: rest, st =>
    if item.quantity ≤ 0 then (st, true)
    else
      fanOutLoop w rest
        (fanOutTask w { st with tasksLaunched := st.tasksLaunched + 1 } item)

/-! ## `CreateOrder`: sequential commit phase and persistence -/

/-- One stock-commit call `productServiceClient.UpdateStock`: a transport
failure if injected, otherwise the product repository's transaction (no
injected DB failure).  Any error surfaces to the orchestrator as
`ErrProductStockUpdateFailed`. -/
def commitStep (w : World) (cat : List Product) (e : String × Int) :
    Except OrderErr Unit × List Product :=
  if w.updFail e.1 then (.error .productStockUpdateFailed, cat)
  else
    let u := UpdateStock .noFail cat e.1 e.2
    match u.1 with
    | .error _ => (.error .productStockUpdateFailed, u.2)
    | .ok _ => (.ok (), u.2)

/-- The commit loop over the delta map, sequential and fail-fast.  (Go
map iteration order is unspecified; insertion order is the
representative ordering.)  Returns the outcome, the commit calls issued
in order, and the resulting catalog. -/
def commitLoop (w : World) : List (String × Int) → List Product →
    Except OrderErr Unit × List (String × Int) × List Product
  | [], cat => (.ok (), [], cat)
  | e :: rest, cat =>
    let s := commitStep w cat e
    match s.1 with
    | .error err => (.error err, [e], s.2)
    | .ok _ =>
      let r := commitLoop w rest s.2
      (r.1, e :: r.2.1, r.2.2)

/-- The catalog after applying a sequence of stock-commit calls one by
one (each step leaves the catalog unchanged when it fails). -/
def applyCommits (w : World) : List (String × Int) → List Product → List Product
  | [], cat => cat
  | e :: rest, cat => applyCommits w rest (commitStep w cat e).2

/-- Outcome of a whole `CreateOrder` call: the returned value or error,
the remote calls issued, and the final product catalog. -/
structure COResult where
  result : Except OrderErr Order
  trace : Trace
  finalCatalog : List Product

/-- Trace after the read phase (validator called once, no commits yet). -/
def readTrace (st : ReadState) : Trace :=
  { validatorCalls := 1, getProductCalls := st.getProductCalls, updateStockCalls := [],
    repoCreateCalls := 0, tasksLaunched := st.tasksLaunched }

/-- Commit phase plus `repo.CreateOrder` persistence: on commit failure
abort with the error (already `ErrProductStockUpdateFailed`), else
persist; the repository assigns ids and timestamps but keeps user,
items, total and status. -/
def commitAndPersist (w : World) (userID : String) (st : ReadState) : COResult :=
  let co := commitLoop w st.stockUpdates w.catalog
  let t : Trace := { readTrace st with updateStockCalls := co.2.1 }
  match co.1 with
  | .error e => { result := .error e, trace := t, finalCatalog := co.2.2 }
  | .ok _ =>
    if w.repoFail then
      { result := .error .storageError, trace := { t with repoCreateCalls := 1 },
        finalCatalog := co.2.2 }
    else
      { result := .ok { userID := userID, items := st.processedItems,
                        totalAmount := st.totalAmount, status := .pending },
        trace := { t with repoCreateCalls := 1 }, finalCatalog := co.2.2 }

/-- `CreateOrder` after a successful user validation. -/
def afterValidation (w : World) (userID : String) (requestedItems : List OrderItem) : COResult :=
  let fo := fanOutLoop w requestedItems initReadState
  if fo.2 then
    { result := .error .invalidOrderData, trace := readTrace fo.1, finalCatalog := w.catalog }
  else
    match fo.1.firstError with
    | some e => { result := .error e, trace := readTrace fo.1, finalCatalog := w.catalog }
    | none =>
      if fo.1.processedItems.length ≠ requestedItems.length then
        { result := .error .processItemsFailed, trace := readTrace fo.1,
          finalCatalog := w.catalog }
      else commitAndPersist w userID fo.1

/-- `OrderService.CreateOrder`. -/
def CreateOrder (w : World) (userID : String) (requestedItems : List OrderItem) : COResult :=
  if userID = "" ∨ requestedItems = [] then
    { result := .error .invalidOrderData, trace := emptyTrace, finalCatalog := w.catalog }
  else
    match w.userAnswer with
    | some _ =>
      { result := .error .userValidationFailed,
        trace := { emptyTrace with validatorCalls := 1 }, finalCatalog := w.catalog }
    | none => afterValidation w userID requestedItems

/-! ## `ListUserOrders` -/

/-- `if page <= 0 { page = 1 }`. -/
def normPage (page : Int) : Int := if page ≤ 0 then 1 else page

/-- `if pageSize <= 0 || pageSize > 100 { pageSize = 10 }`. -/
def normPageSize (pageSize : Int) : Int :=
  if pageSize ≤ 0 ∨ pageSize > 100 then 10 else pageSize

/-- `OrderService.ListUserOrders`, returning the `(userID, limit, offset)`
arguments passed to `repo.ListOrdersByUserID`.  `(page-1)*pageSize` is Go
`int` multiplication, hence 64-bit wrapped. -/
def ListUserOrders (userID : String) (page pageSize : Int) :
    Except OrderErr (String × Int × Int) :=
  if userID = "" then .error .invalidOrderData
  else
    let page2 := normPage page
    let pageSize2 := normPageSize pageSize
    let offset := wrap64 ((page2 - 1) * pageSize2)
    .ok (userID, pageSize2, offset)

/-! ## Derived notions used by the theorems -/

/-- The running total equals the sum over processed items of
`quantity × priceAtPurchase`, and each processed item carries the price
of its product as fetched from the catalog snapshot. -/
def GoodRead (w : World) (st : ReadState) : Prop :=
  st.totalAmount = (st.processedItems.map fun it => (it.quantity : ℚ) * it.priceAtPurchase).sum ∧
  ∀ it ∈ st.processedItems,
    ∃ p, getProduct w it.productID = .ok p ∧ it.priceAtPurchase = p.price

/-- The product identifier and quantity of a line item. -/
def keyQty (it : OrderItem) : String × Int := (it.productID, it.quantity)

/-- Sum of the quantities carried by the pairs with the given product
identifier. -/
def sumQtyP : List (String × Int) → String → Int
  | [], _ => 0
  | e :: rest, pid => (if e.1 = pid then e.2 else 0) + sumQtyP rest pid

/-- The per-product delta map is coherent with a list of processed
`(productID, quantity)` pairs: one entry per product that occurs, whose
value is the `int32`-wrapped negated quantity sum. -/
def DeltaMapFor (upd : List (String × Int)) (done : List (String × Int)) : Prop :=
  (upd.map Prod.fst).Nodup ∧
  (∀ pid, pid ∈ upd.map Prod.fst ↔ pid ∈ done.map Prod.fst) ∧
  ∀ pr ∈ upd, pr.2 = wrap32 (-(sumQtyP done pr.1))

/-! ## Concrete scenarios used by witnesses and counterexamples -/

/-- A world with one product, everything healthy. -/
def wOne : World :=
  { userAnswer := none, catalog := [{ id := "p", price := 5, stockQuantity := 10 }],
    fetchFail := fun _ => false, updFail := fun _ => false, repoFail := false }

def itemsOne : List OrderItem := [{ productID := "p", quantity := 2, priceAtPurchase := 0 }]

def orderOne : Order :=
  { userID := "u", items := [{ productID := "p", quantity := 2, priceAtPurchase := 5 }],
    totalAmount := 10, status := .pending }

/-- A world whose catalog is empty (every fetch yields NotFound). -/
def wEmptyCat : World :=
  { userAnswer := none, catalog := [], fetchFail := fun _ => false, updFail := fun _ => false,
    repoFail := false }

/-- A world where the user validator reports NotFound. -/
def wNoUser : World :=
  { userAnswer := some .notFound, catalog := [], fetchFail := fun _ => false,
    updFail := fun _ => false, repoFail := false }

def itemsZeroQty : List OrderItem := [{ productID := "p", quantity := 0, priceAtPurchase := 0 }]

/-- Two line items for the same product, each within stock, summing
beyond it. -/
def wDup : World :=
  { userAnswer := none, catalog := [{ id := "p", price := 10, stockQuantity := 3 }],
    fetchFail := fun _ => false, updFail := fun _ => false, repoFail := false }

def itemsDup : List OrderItem :=
  [{ productID := "p", quantity := 2, priceAtPurchase := 0 },
   { productID := "p", quantity := 2, priceAtPurchase := 0 }]

/-- Two quantities that overflow the `int32` delta accumulator. -/
def wBigStock : World :=
  { userAnswer := none, catalog := [{ id := "p", price := 1, stockQuantity := 2147483647 }],
    fetchFail := fun _ => false, updFail := fun _ => false, repoFail := false }

def itemsBigQty : List OrderItem :=
  [{ productID := "p", quantity := 1073741825, priceAtPurchase := 0 },
   { productID := "p", quantity := 1073741825, priceAtPurchase := 0 }]

/-- Two products for a successful multi-product commit. -/
def wTwo : World :=
  { userAnswer := none,
    catalog := [{ id := "p", price := 2, stockQuantity := 10 },
                { id := "r", price := 3, stockQuantity := 10 }],
    fetchFail := fun _ => false, updFail := fun _ => false, repoFail := false }

def itemsTwo : List OrderItem :=
  [{ productID := "p", quantity := 1, priceAtPurchase := 0 },
   { productID := "r", quantity := 2, priceAtPurchase := 0 },
   { productID := "p", quantity := 3, priceAtPurchase := 0 }]

/-- A catalog where the second commit must fail on stock. -/
def catCommitFail : List Product :=
  [{ id := "p", price := 1, stockQuantity := 5 }, { id := "q", price := 1, stockQuantity := 0 }]

def updatesCommitFail : List (String × Int) := [("p", -2), ("q", -1)]

/-- A one-product database at the `int32` ceiling. -/
def dbCeil : List Product := [{ id := "p", price := 1, stockQuantity := 2147483647 }]

/-- A one-product database with five in stock. -/
def dbFive : List Product := [{ id := "p", price := 1, stockQuantity := 5 }]

def pFive : Product := { id := "p", price := 1, stockQuantity := 5 }

/-! ## Arithmetic and repository lemmas -/

lemma wrap32_wrap_sub (x q : Int) : wrap32 (wrap32 x - q) = wrap32 (x - q) := by
  unfold wrap32; omega

lemma wrap32_eq_self {x : Int} (h1 : -2147483648 ≤ x) (h2 : x < 2147483648) :
    wrap32 x = x := by
  unfold wrap32; omega

lemma wrap64_eq_self {x : Int} (h1 : -9223372036854775808 ≤ x)
    (h2 : x < 9223372036854775808) : wrap64 x = x := by
  unfold wrap64; omega

lemma findProduct_id {pid : String} {p : Product} :
    ∀ {db : List Product}, findProduct db pid = some p → p.id = pid
  | [], h => by simp [findProduct] at h
  | q :: rest, h => by
    by_cases hq : q.id = pid
    · rw [findProduct, if_pos hq] at h
      simp only [Option.some.injEq] at h
      rw [← h]; exact hq
    · rw [findProduct, if_neg hq] at h
      exact findProduct_id h

lemma findProduct_map_set {pid : String} {p2 : Product} (hid : p2.id = pid) :
    ∀ {db : List Product} {p : Product}, findProduct db pid = some p →
      findProduct (db.map fun q => if q.id = pid then p2 else q) pid = some p2
  | [], p, h => by simp [findProduct] at h
  | q :: rest, p, h => by
    by_cases hq : q.id = pid
    · simp only [List.map_cons, if_pos hq, findProduct, hid, if_pos]
    · rw [findProduct, if_neg hq] at h
      simp only [List.map_cons, if_neg hq, findProduct]
      exact findProduct_map_set hid h

lemma findProduct_map_set_other {pid pid2 : String} {p2 : Product} (hid : p2.id = pid)
    (hne : pid2 ≠ pid) :
    ∀ {db : List Product},
      findProduct (db.map fun q => if q.id = pid then p2 else q) pid2 = findProduct db pid2
  | [] => by simp [findProduct]
  | q :: rest => by
    by_cases hq : q.id = pid
    · simp only [List.map_cons, if_pos hq, findProduct]
      rw [if_neg (by rw [hid]; exact fun h => hne h.symm), if_neg (by rw [hq]; exact fun h => hne h.symm)]
      exact findProduct_map_set_other hid hne
    · simp only [List.map_cons, if_neg hq, findProduct]
      by_cases hq2 : q.id = pid2
      · rw [if_pos hq2, if_pos hq2]
      · rw [if_neg hq2, if_neg hq2]
        exact findProduct_map_set_other hid hne

/-- Every error path of the repository transaction rolls back: the
database is returned unchanged. -/
lemma updateStock_error_keeps {tf : TxFail} {db : List Product} {pid : String} {qc : Int}
    {er : StockErr} :
    (UpdateStock tf db pid qc).1 = .error er → (UpdateStock tf db pid qc).2 = db := by
  unfold UpdateStock
  split
  · intro _; rfl
  split
  · intro _; rfl
  split
  · intro _; rfl
  next p hp =>
    dsimp only
    split
    · intro _; rfl
    split
    · intro _; rfl
    split
    · intro _; rfl
    · intro h; simp at h

/-! ## Fan-out phase lemmas -/

lemma getProduct_ok_id {w : World} {pid : String} {p : Product}
    (h : getProduct w pid = .ok p) : p.id = pid := by
  unfold getProduct at h
  split at h
  · simp at h
  · split at h
    · next q hq =>
      simp only [Except.ok.injEq] at h
      rw [← h]; exact findProduct_id hq
    · simp at h

lemma fanOutTask_error_frozen {w : World} {st : ReadState} (item : OrderItem)
    (h : st.firstError.isSome) : fanOutTask w st item = st := by
  unfold fanOutTask
  rw [if_pos h]

lemma fanOutTask_none_of_none {w : World} {st : ReadState} {item : OrderItem}
    (h : (fanOutTask w st item).firstError = none) : st.firstError = none := by
  by_cases hs : st.firstError.isSome
  · rw [fanOutTask_error_frozen item hs] at h
    rw [h] at hs; simp at hs
  · simpa [Option.not_isSome_iff_eq_none] using hs

lemma fanOutTask_tasksLaunched (w : World) (st : ReadState) (item : OrderItem) :
    (fanOutTask w st item).tasksLaunched = st.tasksLaunched := by
  unfold fanOutTask
  split
  · rfl
  · split
    · rfl
    · split <;> rfl

/-- Exhaustive description of one fan-out task run from an error-free
state: fetch failure, insufficient snapshot stock, or success. -/
lemma fanOutTask_cases (w : World) (st : ReadState) (item : OrderItem)
    (hnone : st.firstError = none) :
    (∃ f, getProduct w item.productID = .error f ∧
       fanOutTask w st item = { st with getProductCalls := st.getProductCalls + 1,
                                        firstError := some .productFetchFailed }) ∨
    (∃ p, getProduct w item.productID = .ok p ∧ p.stockQuantity < item.quantity ∧
       fanOutTask w st item = { st with getProductCalls := st.getProductCalls + 1,
                                        firstError := some .insufficientStockForOrder }) ∨
    (∃ p, getProduct w item.productID = .ok p ∧ ¬(p.stockQuantity < item.quantity) ∧
       fanOutTask w st item = { st with
         getProductCalls := st.getProductCalls + 1,
         totalAmount := st.totalAmount + p.price * (item.quantity : ℚ),
         processedItems := st.processedItems ++
           [{ productID := p.id, quantity := item.quantity, priceAtPurchase := p.price }],
         stockUpdates := mapSub st.stockUpdates p.id item.quantity }) := by
  have hcond : ¬(st.firstError.isSome = true) := by simp [hnone]
  unfold fanOutTask
  rw [if_neg hcond]
  split
  · next f heq => exact Or.inl ⟨f, heq, rfl⟩
  · next p heq =>
    split
    · next hs => exact Or.inr (Or.inl ⟨p, heq, hs, rfl⟩)
    · next hs => exact Or.inr (Or.inr ⟨p, heq, hs, rfl⟩)

/-- A task that leaves the error slot empty succeeded: it fetched the
product, found enough snapshot stock, and accumulated the item. -/
lemma fanOutTask_success {w : World} {st : ReadState} {item : OrderItem}
    (hnone : st.firstError = none)
    (hres : (fanOutTask w st item).firstError = none) :
    ∃ p, getProduct w item.productID = .ok p ∧ ¬(p.stockQuantity < item.quantity) ∧
      fanOutTask w st item = { st with
        getProductCalls := st.getProductCalls + 1,
        totalAmount := st.totalAmount + p.price * (item.quantity : ℚ),
        processedItems := st.processedItems ++
          [{ productID := p.id, quantity := item.quantity, priceAtPurchase := p.price }],
        stockUpdates := mapSub st.stockUpdates p.id item.quantity } := by
  rcases fanOutTask_cases w st item hnone with ⟨f, _, heq⟩ | ⟨p, _, _, heq⟩ | ⟨p, hgp, hs, heq⟩
  · rw [heq] at hres; simp at hres
  · rw [heq] at hres; simp at hres
  · exact ⟨p, hgp, hs, heq⟩

lemma fanOutLoop_none_of_none {w : World} :
    ∀ {items : List OrderItem} {st : ReadState},
      (fanOutLoop w items st).1.firstError = none → st.firstError = none
  | [], st, h => h
  | item :: rest, st, h => by
    rw [fanOutLoop] at h
    split at h
    · exact h
    · have h2 := fanOutLoop_none_of_none h
      have h3 := fanOutTask_none_of_none h2
      exact h3

lemma fanOutLoop_no_early {w : World} :
    ∀ {items : List OrderItem} (st : ReadState),
      (∀ it ∈ items, 0 < it.quantity) → (fanOutLoop w items st).2 = false
  | [], st, _ => rfl
  | item :: rest, st, h => by
    rw [fanOutLoop]
    rw [if_neg (by have := h item (by simp); omega)]
    exact fanOutLoop_no_early _ (fun it hit => h it (by simp [hit]))

lemma fanOutLoop_early_of_nonpos {w : World} :
    ∀ {items : List OrderItem} (st : ReadState),
      (∃ it ∈ items, it.quantity ≤ 0) → (fanOutLoop w items st).2 = true
  | [], _, h => by simp at h
  | item :: rest, st, h => by
    rw [fanOutLoop]
    by_cases hq : item.quantity ≤ 0
    · rw [if_pos hq]
    · rw [if_neg hq]
      apply fanOutLoop_early_of_nonpos
      rcases h with ⟨it, hit, hle⟩
      rcases List.mem_cons.mp hit with heq | hmem
      · exact absurd (heq ▸ hle) hq
      · exact ⟨it, hmem, hle⟩

lemma fanOutLoop_tasks {w : World} :
    ∀ {items : List OrderItem} (st : ReadState),
      (∀ it ∈ items, 0 < it.quantity) →
      (fanOutLoop w items st).1.tasksLaunched = st.tasksLaunched + items.length
  | [], st, _ => rfl
  | item :: rest, st, h => by
    rw [fanOutLoop]
    rw [if_neg (by have := h item (by simp); omega)]
    rw [fanOutLoop_tasks _ (fun it hit => h it (by simp [hit]))]
    rw [fanOutTask_tasksLaunched]
    simp only [List.length_cons]
    omega

/-! ## Read-phase invariant: totals and price provenance -/

lemma goodRead_init (w : World) : GoodRead w initReadState := by
  constructor
  · simp [initReadState]
  · intro it hit; simp [initReadState] at hit

lemma fanOutTask_good {w : World} {st : ReadState} (item : OrderItem)
    (h : GoodRead w st) : GoodRead w (fanOutTask w st item) := by
  by_cases hs : st.firstError.isSome
  · rw [fanOutTask_error_frozen item hs]; exact h
  · have hnone : st.firstError = none := by
      simpa [Option.not_isSome_iff_eq_none] using hs
    rcases fanOutTask_cases w st item hnone with ⟨f, _, heq⟩ | ⟨p, _, _, heq⟩ | ⟨p, hgp, _, heq⟩
    · rw [heq]; exact ⟨h.1, h.2⟩
    · rw [heq]; exact ⟨h.1, h.2⟩
    · rw [heq]
      have hid : p.id = item.productID := getProduct_ok_id hgp
      constructor
      · simp only [List.map_append, List.sum_append, List.map_cons, List.map_nil,
          List.sum_cons, List.sum_nil, h.1]
        ring
      · intro it hit
        rcases List.mem_append.mp hit with hold | hnew
        · exact h.2 it hold
        · simp only [List.mem_singleton] at hnew
          refine ⟨p, ?_, ?_⟩
          · rw [hnew]; simpa [hid] using hgp
          · rw [hnew]

lemma fanOutLoop_good {w : World} :
    ∀ {items : List OrderItem} {st : ReadState},
      GoodRead w st → GoodRead w (fanOutLoop w items st).1
  | [], st, h => h
  | item :: rest, st, h => by
    rw [fanOutLoop]
    split
    · exact h
    · exact fanOutLoop_good (fanOutTask_good item ⟨h.1, h.2⟩)

/-! ## Shape of a successful `CreateOrder` -/

/-- A successful `CreateOrder` returns exactly the order assembled from
the read-phase state (the repository persists it unchanged). -/
lemma createOrder_ok_shape {w : World} {uid : String} {items : List OrderItem} {order : Order}
    (h : (CreateOrder w uid items).result = .ok order) :
    order = { userID := uid,
              items := (fanOutLoop w items initReadState).1.processedItems,
              totalAmount := (fanOutLoop w items initReadState).1.totalAmount,
              status := .pending } := by
  unfold CreateOrder at h
  split at h
  · simp at h
  · split at h
    · simp at h
    · simp only [afterValidation] at h
      split at h
      · simp at h
      · split at h
        · simp at h
        · split at h
          · simp at h
          · simp only [commitAndPersist] at h
            split at h
            · simp at h
            · split at h
              · simp at h
              · simp only [Except.ok.injEq] at h
                exact h.symm

lemma createOrder_valid_user {w : World} {uid : String} {items : List OrderItem}
    (h1 : uid ≠ "") (h2 : items ≠ []) (h3 : w.userAnswer = none) :
    CreateOrder w uid items = afterValidation w uid items := by
  unfold CreateOrder
  rw [if_neg (by simp [h1, h2]), h3]

lemma updateStock_noFail_eval (db : List Product) (pid : String) (qc : Int) (p : Product)
    (h : findProduct db pid = some p) :
    UpdateStock .noFail db pid qc =
      if wrap32 (p.stockQuantity + qc) < 0 then (.error .insufficientStock, db)
      else (.ok { p with stockQuantity := wrap32 (p.stockQuantity + qc) },
            db.map fun q =>
              if q.id = pid then { p with stockQuantity := wrap32 (p.stockQuantity + qc) }
              else q) := by
  unfold UpdateStock
  rw [if_neg (by decide), if_neg (by decide), h]
  rfl

/-! ## Claim theorems -/

/-- C1: for every successful `CreateOrder`, the returned order's
`totalAmount` equals the sum over its items of
`quantity × priceAtPurchase`, where each item's `priceAtPurchase` is the
price fetched from the catalog snapshot during the fan-out read phase
(never recomputed later). -/
theorem createOrder_totalAmount_from_snapshot
    (w : World) (uid : String) (items : List OrderItem) (order : Order)
    (h : (CreateOrder w uid items).result = .ok order) :
    order.totalAmount
      = (order.items.map fun it => (it.quantity : ℚ) * it.priceAtPurchase).sum ∧
    ∀ it ∈ order.items,
      ∃ p, getProduct w it.productID = .ok p ∧ it.priceAtPurchase = p.price := by
  have hshape := createOrder_ok_shape h
  have hgood : GoodRead w (fanOutLoop w items initReadState).1 :=
    fanOutLoop_good (goodRead_init w)
  rw [hshape]
  exact ⟨hgood.1, hgood.2⟩

/-- C1 witness: a concrete successful order whose total is the sum of the
captured snapshot prices. -/
theorem createOrder_totalAmount_from_snapshot_witness :
    (CreateOrder wOne "u" itemsOne).result = .ok orderOne ∧
    (orderOne.totalAmount
       = (orderOne.items.map fun it => (it.quantity : ℚ) * it.priceAtPurchase).sum ∧
     ∀ it ∈ orderOne.items,
       ∃ p, getProduct wOne it.productID = .ok p ∧ it.priceAtPurchase = p.price) := by
  have hres : (CreateOrder wOne "u" itemsOne).result = .ok orderOne := by
    simp +decide [CreateOrder, wOne, itemsOne, orderOne, afterValidation, commitAndPersist,
      fanOutLoop, fanOutTask, getProduct, findProduct, initReadState, mapSub, setDelta,
      lookupDelta, readTrace, emptyTrace, commitLoop, commitStep, UpdateStock, wrap32]
    norm_num
  exact ⟨hres, createOrder_totalAmount_from_snapshot wOne "u" itemsOne orderOne hres⟩

/-- C5 (amended): an empty `userID` or an empty item list fails
immediately with `InvalidInput` and no remote call at all; an item with
nonpositive quantity also fails with `InvalidInput`, but only after the
user-validator call has been issued (an empty product identifier is not
checked at all, cf. the counterexample). -/
theorem createOrder_input_validation
    (w : World) (uid : String) (items : List OrderItem) :
    ((uid = "" ∨ items = []) →
       (CreateOrder w uid items).result = .error .invalidOrderData ∧
       (CreateOrder w uid items).trace = emptyTrace) ∧
    (uid ≠ "" → items ≠ [] → w.userAnswer = none → (∃ it ∈ items, it.quantity ≤ 0) →
       (CreateOrder w uid items).result = .error .invalidOrderData ∧
       (CreateOrder w uid items).trace.validatorCalls = 1) := by
  constructor
  · intro h
    unfold CreateOrder
    rw [if_pos h]
    exact ⟨rfl, rfl⟩
  · intro h1 h2 h3 h4
    rw [createOrder_valid_user h1 h2 h3]
    simp only [afterValidation]
    rw [fanOutLoop_early_of_nonpos initReadState h4]
    exact ⟨rfl, rfl⟩

/-- C5 counterexample: with an unknown user and a single item of
quantity `0`, the call returns `UserValidationFailed` — not
`InvalidInput` — after one remote validator call, because the quantity
check runs inside the fan-out loop, after user validation. -/
theorem createOrder_invalid_input_after_remote_call :
    (CreateOrder wNoUser "u" itemsZeroQty).result = .error .userValidationFailed ∧
    ¬((CreateOrder wNoUser "u" itemsZeroQty).result = .error .invalidOrderData) ∧
    (CreateOrder wNoUser "u" itemsZeroQty).trace.validatorCalls = 1 := by
  refine ⟨rfl, fun hc => ?_, rfl⟩
  have hres : (CreateOrder wNoUser "u" itemsZeroQty).result
      = Except.error OrderErr.userValidationFailed := rfl
  rw [hres] at hc
  simp at hc

/-- C5 witness: the amended claim at a concrete input with a
zero-quantity item and a valid user. -/
theorem createOrder_input_validation_witness :
    ("u" : String) ≠ "" ∧ itemsZeroQty ≠ [] ∧ wEmptyCat.userAnswer = none ∧
    (∃ it ∈ itemsZeroQty, it.quantity ≤ 0) ∧
    ((CreateOrder wEmptyCat "u" itemsZeroQty).result = .error .invalidOrderData ∧
     (CreateOrder wEmptyCat "u" itemsZeroQty).trace.validatorCalls = 1) :=
  ⟨by decide, by decide, rfl, by decide,
   (createOrder_input_validation wEmptyCat "u" itemsZeroQty).2
     (by decide) (by decide) rfl (by decide)⟩

/-- C6: when the user-validator call fails, `CreateOrder` fails with
`UserValidationFailed` after exactly one validator call and zero product
fetches — validation strictly precedes every catalog call. -/
theorem createOrder_user_validation_precedes_fetch
    (w : World) (uid : String) (items : List OrderItem)
    (h1 : uid ≠ "") (h2 : items ≠ []) (h3 : w.userAnswer ≠ none) :
    (CreateOrder w uid items).result = .error .userValidationFailed ∧
    (CreateOrder w uid items).trace.getProductCalls = 0 ∧
    (CreateOrder w uid items).trace.validatorCalls = 1 := by
  unfold CreateOrder
  rw [if_neg (by simp [h1, h2])]
  cases ha : w.userAnswer with
  | none => exact absurd ha h3
  | some f => exact ⟨rfl, rfl, rfl⟩

/-- C6 witness: an unknown user at a concrete input. -/
theorem createOrder_user_validation_precedes_fetch_witness :
    ("u" : String) ≠ "" ∧ itemsOne ≠ [] ∧ wNoUser.userAnswer ≠ none ∧
    ((CreateOrder wNoUser "u" itemsOne).result = .error .userValidationFailed ∧
     (CreateOrder wNoUser "u" itemsOne).trace.getProductCalls = 0 ∧
     (CreateOrder wNoUser "u" itemsOne).trace.validatorCalls = 1) :=
  ⟨by decide, by decide, by decide,
   createOrder_user_validation_precedes_fetch wNoUser "u" itemsOne
     (by decide) (by decide) (by decide)⟩

/-- C7 (amended): for a product present in the catalog, the stock
adjustment fails with `InsufficientStock` exactly when the
`int32`-wrapped sum of current stock and delta is negative; every
failure (including injected storage failures) leaves the database
unchanged; success stores and returns the wrapped sum as the new
stock. -/
theorem updateStock_stock_adjustment
    (db : List Product) (pid : String) (qc : Int) (p : Product)
    (h : findProduct db pid = some p) :
    ((UpdateStock .noFail db pid qc).1 = .error .insufficientStock ↔
       wrap32 (p.stockQuantity + qc) < 0) ∧
    (∀ tf er, (UpdateStock tf db pid qc).1 = .error er →
       (UpdateStock tf db pid qc).2 = db) ∧
    (∀ p2, (UpdateStock .noFail db pid qc).1 = .ok p2 →
       p2.stockQuantity = wrap32 (p.stockQuantity + qc) ∧
       findProduct (UpdateStock .noFail db pid qc).2 pid = some p2) := by
  have he := updateStock_noFail_eval db pid qc p h
  refine ⟨?_, fun tf er => updateStock_error_keeps, fun p2 hp2 => ?_⟩
  · rw [he]
    by_cases hw : wrap32 (p.stockQuantity + qc) < 0
    · rw [if_pos hw]; simp [hw]
    · rw [if_neg hw]; simp [hw]
  · rw [he] at hp2
    by_cases hw : wrap32 (p.stockQuantity + qc) < 0
    · rw [if_pos hw] at hp2; simp at hp2
    · rw [if_neg hw] at hp2
      simp only [Except.ok.injEq] at hp2
      have hid0 : p.id = pid := findProduct_id h
      have hid : ({ p with stockQuantity := wrap32 (p.stockQuantity + qc) } : Product).id = pid :=
        hid0
      constructor
      · rw [← hp2]
      · rw [he, if_neg hw]
        rw [← hp2]
        exact findProduct_map_set hid h

/-- C7 counterexample: at the `int32` ceiling, stock `2147483647` plus
delta `1` is rejected as `InsufficientStock` although the mathematical
sum is nonnegative — the non-negativity check reads the wrapped sum. -/
theorem updateStock_rejects_on_int32_overflow :
    (UpdateStock .noFail dbCeil "p" 1).1 = .error .insufficientStock ∧
    ¬((2147483647 : Int) + 1 < 0) :=
  ⟨rfl, by decide⟩

/-- C7 witness: the amended claim at a concrete database and delta. -/
theorem updateStock_stock_adjustment_witness :
    findProduct dbFive "p" = some pFive ∧
    (((UpdateStock .noFail dbFive "p" (-2)).1 = .error .insufficientStock ↔
        wrap32 (pFive.stockQuantity + -2) < 0) ∧
     (∀ tf er, (UpdateStock tf dbFive "p" (-2)).1 = .error er →
        (UpdateStock tf dbFive "p" (-2)).2 = dbFive) ∧
     (∀ p2, (UpdateStock .noFail dbFive "p" (-2)).1 = .ok p2 →
        p2.stockQuantity = wrap32 (pFive.stockQuantity + -2) ∧
        findProduct (UpdateStock .noFail dbFive "p" (-2)).2 "p" = some p2)) :=
  ⟨rfl, updateStock_stock_adjustment dbFive "p" (-2) pFive rfl⟩

/-- C10 (amended): `ListUserOrders` normalizes its pagination (a page
below 1 becomes 1, a page size outside 1..100 becomes 10) and queries
the store with the normalized page size as limit and the `int64`-wrapped
product `(page-1)·pageSize` as offset; the limit is always in 1..100,
and the offset is nonnegative whenever that product does not overflow
`int64`. -/
theorem listUserOrders_pagination
    (uid : String) (page pageSize : Int) (h : uid ≠ "") :
    ListUserOrders uid page pageSize
      = .ok (uid, normPageSize pageSize,
             wrap64 ((normPage page - 1) * normPageSize pageSize)) ∧
    1 ≤ normPageSize pageSize ∧ normPageSize pageSize ≤ 100 ∧ 1 ≤ normPage page ∧
    (((normPage page - 1) * normPageSize pageSize) < 9223372036854775808 →
       0 ≤ wrap64 ((normPage page - 1) * normPageSize pageSize)) := by
  have hps1 : 1 ≤ normPageSize pageSize := by
    unfold normPageSize; split_ifs with h2 <;> omega
  have hps2 : normPageSize pageSize ≤ 100 := by
    unfold normPageSize; split_ifs with h2 <;> omega
  have hp1 : 1 ≤ normPage page := by
    unfold normPage; split_ifs with h2 <;> omega
  refine ⟨?_, hps1, hps2, hp1, fun hlt => ?_⟩
  · unfold ListUserOrders
    rw [if_neg h]
  · have h0 : 0 ≤ (normPage page - 1) * normPageSize pageSize :=
      mul_nonneg (by omega) (by omega)
    rw [wrap64_eq_self (by omega) hlt]
    exact h0

/-- C10 counterexample: `page = 2^62 + 1` with `pageSize = 10` makes the
store offset wrap to `-2^63`, a negative offset. -/
theorem listUserOrders_offset_wraps_negative :
    ListUserOrders "u" 4611686018427387905 10 = .ok ("u", 10, -9223372036854775808) ∧
    (-9223372036854775808 : Int) < 0 :=
  ⟨rfl, by decide⟩

/-- C10 witness: the amended claim at a concrete page and page size. -/
theorem listUserOrders_pagination_witness :
    ("u" : String) ≠ "" ∧
    (ListUserOrders "u" 3 20
       = .ok ("u", normPageSize 20, wrap64 ((normPage 3 - 1) * normPageSize 20)) ∧
     1 ≤ normPageSize 20 ∧ normPageSize 20 ≤ 100 ∧ 1 ≤ normPage 3 ∧
     ((normPage 3 - 1) * normPageSize 20 < 9223372036854775808 →
        0 ≤ wrap64 ((normPage 3 - 1) * normPageSize 20))) :=
  ⟨by decide, listUserOrders_pagination "u" 3 20 (by decide)⟩

/-- The fan-out loop only ever records `ProductFetchFailed` or
`InsufficientStockForOrder`. -/
lemma fanOutLoop_error_shape {w : World} :
    ∀ {items : List OrderItem} {st : ReadState},
      (st.firstError = none ∨ st.firstError = some .productFetchFailed ∨
        st.firstError = some .insufficientStockForOrder) →
      ((fanOutLoop w items st).1.firstError = none ∨
       (fanOutLoop w items st).1.firstError = some .productFetchFailed ∨
       (fanOutLoop w items st).1.firstError = some .insufficientStockForOrder)
  | [], _, h => h
  | item :: rest, st, h => by
    rw [fanOutLoop]
    split
    · exact h
    · apply fanOutLoop_error_shape
      rcases h with h0 | h0 | h0
      · rcases fanOutTask_cases w { st with tasksLaunched := st.tasksLaunched + 1 } item h0 with
          ⟨f, _, heq⟩ | ⟨p, _, _, heq⟩ | ⟨p, _, _, heq⟩ <;> rw [heq]
        · right; left; rfl
        · right; right; rfl
        · left; exact h0
      · rw [fanOutTask_error_frozen item (by simp [h0])]
        right; left; exact h0
      · rw [fanOutTask_error_frozen item (by simp [h0])]
        right; right; exact h0

/-- C2: when a fan-out read task records an error (product fetch failure
or insufficient snapshot stock), `CreateOrder` returns that first
recorded error and issues zero stock-commit calls. -/
theorem createOrder_read_error_aborts
    (w : World) (uid : String) (items : List OrderItem) (e : OrderErr)
    (h1 : uid ≠ "") (h2 : items ≠ []) (h3 : w.userAnswer = none)
    (h4 : ∀ it ∈ items, 0 < it.quantity)
    (h5 : (fanOutLoop w items initReadState).1.firstError = some e) :
    (CreateOrder w uid items).result = .error e ∧
    (CreateOrder w uid items).trace.updateStockCalls = [] ∧
    (e = .productFetchFailed ∨ e = .insufficientStockForOrder) := by
  have hearly : (fanOutLoop w items initReadState).2 = false := fanOutLoop_no_early _ h4
  have hred : CreateOrder w uid items
      = { result := .error e, trace := readTrace (fanOutLoop w items initReadState).1,
          finalCatalog := w.catalog } := by
    rw [createOrder_valid_user h1 h2 h3]
    simp only [afterValidation]
    rw [hearly, if_neg (by decide), h5]
  refine ⟨by rw [hred], by rw [hred]; rfl, ?_⟩
  rcases @fanOutLoop_error_shape w items initReadState (Or.inl rfl) with h0 | h0 | h0
  · rw [h5] at h0; simp at h0
  · rw [h5] at h0; simp only [Option.some.injEq] at h0; exact Or.inl h0
  · rw [h5] at h0; simp only [Option.some.injEq] at h0; exact Or.inr h0

/-- C2 witness: a missing product at a concrete input. -/
theorem createOrder_read_error_aborts_witness :
    ("u" : String) ≠ "" ∧ itemsOne ≠ [] ∧ wEmptyCat.userAnswer = none ∧
    (∀ it ∈ itemsOne, 0 < it.quantity) ∧
    (fanOutLoop wEmptyCat itemsOne initReadState).1.firstError
      = some .productFetchFailed ∧
    ((CreateOrder wEmptyCat "u" itemsOne).result = .error .productFetchFailed ∧
     (CreateOrder wEmptyCat "u" itemsOne).trace.updateStockCalls = [] ∧
     (OrderErr.productFetchFailed = .productFetchFailed ∨
      OrderErr.productFetchFailed = .insufficientStockForOrder)) :=
  ⟨by decide, by decide, rfl, by decide, rfl,
   createOrder_read_error_aborts wEmptyCat "u" itemsOne .productFetchFailed
     (by decide) (by decide) rfl (by decide) rfl⟩

/-- C8 (amended): with a validated user and positive quantities, the
fan-out launches exactly one read task per requested line item — the
list length, duplicates included, not the number of distinct product
identifiers. -/
theorem createOrder_one_task_per_line_item
    (w : World) (uid : String) (items : List OrderItem)
    (h1 : uid ≠ "") (h2 : items ≠ []) (h3 : w.userAnswer = none)
    (h4 : ∀ it ∈ items, 0 < it.quantity) :
    (CreateOrder w uid items).trace.tasksLaunched = items.length := by
  have htasks : (fanOutLoop w items initReadState).1.tasksLaunched = items.length := by
    rw [fanOutLoop_tasks initReadState h4]
    simp [initReadState]
  rw [createOrder_valid_user h1 h2 h3]
  simp only [afterValidation]
  rw [fanOutLoop_no_early initReadState h4, if_neg (by decide)]
  cases hfe : (fanOutLoop w items initReadState).1.firstError with
  | some e => exact htasks
  | none =>
    split
    · exact htasks
    · simp only [commitAndPersist]
      repeat' split
      all_goals exact htasks

/-- C8 counterexample: two line items for the same product launch two
read tasks, while the request has a single distinct product
identifier. -/
theorem createOrder_tasks_not_per_distinct_product :
    (CreateOrder wDup "u" itemsDup).trace.tasksLaunched = 2 ∧
    ((itemsDup.map fun it => it.productID).dedup).length = 1 ∧
    (2 : Nat) ≠ 1 := by
  refine ⟨rfl, ?_, by decide⟩
  decide

/-- C8 witness: the amended claim at a concrete two-item input. -/
theorem createOrder_one_task_per_line_item_witness :
    ("u" : String) ≠ "" ∧ itemsDup ≠ [] ∧ wDup.userAnswer = none ∧
    (∀ it ∈ itemsDup, 0 < it.quantity) ∧
    (CreateOrder wDup "u" itemsDup).trace.tasksLaunched = itemsDup.length :=
  ⟨by decide, by decide, rfl, by decide,
   createOrder_one_task_per_line_item wDup "u" itemsDup (by decide) (by decide) rfl (by decide)⟩

/-- C9: the fan-out stock check is per line item, not per product sum:
with two items of quantity 2 for a product with stock 3, each item
passes individually, the read phase records no
`InsufficientStockForOrder`, one commit call with the summed delta `-4`
is issued, and the repository's non-negativity check rejects it, so the
call fails with `ProductStockUpdateFailed`. -/
theorem createOrder_duplicate_quantities_slip_read_phase :
    (∀ it ∈ itemsDup, it.quantity ≤ 3) ∧
    getProduct wDup "p" = .ok { id := "p", price := 10, stockQuantity := 3 } ∧
    sumQtyP (itemsDup.map keyQty) "p" = 4 ∧ (3 : Int) < 4 ∧
    (fanOutLoop wDup itemsDup initReadState).1.firstError = none ∧
    (CreateOrder wDup "u" itemsDup).trace.updateStockCalls = [("p", -4)] ∧
    (UpdateStock .noFail wDup.catalog "p" (-4)).1 = .error .insufficientStock ∧
    (CreateOrder wDup "u" itemsDup).result = .error .productStockUpdateFailed := by
  refine ⟨by decide, rfl, rfl, by decide, rfl, rfl, rfl, rfl⟩

/-! ## Commit-phase lemmas -/

lemma commitStep_error_eq {w : World} {cat : List Product} {e : String × Int} {er : OrderErr} :
    (commitStep w cat e).1 = .error er → er = .productStockUpdateFailed := by
  simp only [commitStep]
  split
  · intro h
    simp only [Except.error.injEq] at h
    exact h.symm
  · split
    · intro h
      simp only [Except.error.injEq] at h
      exact h.symm
    · intro h
      simp at h

lemma commitStep_error_keeps {w : World} {cat : List Product} {e : String × Int} {er : OrderErr} :
    (commitStep w cat e).1 = .error er → (commitStep w cat e).2 = cat := by
  simp only [commitStep]
  split
  · intro _; rfl
  · split
    · next a heq => intro _; exact updateStock_error_keeps heq
    · intro h; simp at h

lemma commitLoop_cons_error {w : World} {cat : List Product} {e0 : String × Int}
    {rest : List (String × Int)} {er : OrderErr} (hs : (commitStep w cat e0).1 = .error er) :
    commitLoop w (e0 :: rest) cat = (.error er, [e0], (commitStep w cat e0).2) := by
  simp only [commitLoop, hs]

lemma commitLoop_cons_ok {w : World} {cat : List Product} {e0 : String × Int}
    {rest : List (String × Int)} (hs : (commitStep w cat e0).1 = .ok ()) :
    commitLoop w (e0 :: rest) cat =
      ((commitLoop w rest (commitStep w cat e0).2).1,
       e0 :: (commitLoop w rest (commitStep w cat e0).2).2.1,
       (commitLoop w rest (commitStep w cat e0).2).2.2) := by
  simp only [commitLoop, hs]

lemma commitLoop_ok_calls {w : World} :
    ∀ (updates : List (String × Int)) (cat : List Product),
      (commitLoop w updates cat).1 = .ok () → (commitLoop w updates cat).2.1 = updates
  | [], _ => fun _ => rfl
  | e0 :: rest, cat => by
    cases hs : (commitStep w cat e0).1 with
    | error er =>
      rw [commitLoop_cons_error hs]
      intro h; simp at h
    | ok u =>
      cases u
      rw [commitLoop_cons_ok hs]
      intro h
      have := commitLoop_ok_calls rest (commitStep w cat e0).2 h
      simp [this]

/-- The fail-fast behaviour of the sequential commit loop: a failing run
stops at the first failing commit call, returns
`ProductStockUpdateFailed`, and keeps the catalog produced by the
already-applied commits. -/
lemma commitLoop_error_spec {w : World} :
    ∀ (updates : List (String × Int)) (cat : List Product) (e : OrderErr),
      (commitLoop w updates cat).1 = .error e →
      e = .productStockUpdateFailed ∧
      ∃ k, k < updates.length ∧
        (commitLoop w updates cat).2.1 = updates.take (k+1) ∧
        (∀ j, j < k →
          (commitStep w (applyCommits w (updates.take j) cat) (updates.getD j ("", 0))).1
            = .ok ()) ∧
        (commitStep w (applyCommits w (updates.take k) cat) (updates.getD k ("", 0))).1
          = .error .productStockUpdateFailed ∧
        (commitLoop w updates cat).2.2 = applyCommits w (updates.take k) cat
  | [], cat, e => by
    intro h; simp [commitLoop] at h
  | e0 :: rest, cat, e => by
    intro h
    cases hs : (commitStep w cat e0).1 with
    | error er =>
      rw [commitLoop_cons_error hs] at h ⊢
      simp only [Except.error.injEq] at h
      have her : e = er := h.symm
      have hpf : er = .productStockUpdateFailed := commitStep_error_eq hs
      refine ⟨her.trans hpf, 0, by simp, rfl, fun j hj => absurd hj (by omega), ?_, ?_⟩
      · show (commitStep w cat e0).1 = .error .productStockUpdateFailed
        rw [hs, hpf]
      · exact commitStep_error_keeps hs
    | ok u =>
      cases u
      rw [commitLoop_cons_ok hs] at h ⊢
      obtain ⟨he, k, hk, hcalls, hsucc, hfail, hcat⟩ :=
        commitLoop_error_spec rest (commitStep w cat e0).2 e h
      refine ⟨he, k + 1, by simpa using Nat.succ_lt_succ hk, ?_, ?_, ?_, ?_⟩
      · show e0 :: (commitLoop w rest (commitStep w cat e0).2).2.1
            = (e0 :: rest).take (k + 1 + 1)
        rw [hcalls]
        rfl
      · intro j hj
        cases j with
        | zero =>
          show (commitStep w cat e0).1 = .ok ()
          exact hs
        | succ j' =>
          have hj' : j' < k := by omega
          have := hsucc j' hj'
          exact this
      · have := hfail
        exact this
      · show (commitLoop w rest (commitStep w cat e0).2).2.2
            = applyCommits w ((e0 :: rest).take (k + 1)) cat
        rw [hcat]
        rfl

/-- C4: stock commits are sequential and fail-fast: on the first failing
stock-commit call the loop stops (the calls issued are exactly the
planned updates up to and including the failing one), the phase aborts
with `ProductStockUpdateFailed`, and the commits already applied are not
rolled back — the resulting catalog is the one produced by the
successful prefix, with no compensating call. -/
theorem commit_fail_fast (w : World) (updates : List (String × Int)) (cat : List Product)
    (e : OrderErr) (h : (commitLoop w updates cat).1 = .error e) :
    e = .productStockUpdateFailed ∧
    ∃ k, k < updates.length ∧
      (commitLoop w updates cat).2.1 = updates.take (k+1) ∧
      (∀ j, j < k →
        (commitStep w (applyCommits w (updates.take j) cat) (updates.getD j ("", 0))).1
          = .ok ()) ∧
      (commitStep w (applyCommits w (updates.take k) cat) (updates.getD k ("", 0))).1
        = .error .productStockUpdateFailed ∧
      (commitLoop w updates cat).2.2 = applyCommits w (updates.take k) cat :=
  commitLoop_error_spec updates cat e h

/-- C4 witness: a two-commit plan whose second commit fails on stock. -/
theorem commit_fail_fast_witness :
    (commitLoop wOne updatesCommitFail catCommitFail).1 = .error .productStockUpdateFailed ∧
    (OrderErr.productStockUpdateFailed = .productStockUpdateFailed ∧
     ∃ k, k < updatesCommitFail.length ∧
       (commitLoop wOne updatesCommitFail catCommitFail).2.1
         = updatesCommitFail.take (k+1) ∧
       (∀ j, j < k →
         (commitStep wOne (applyCommits wOne (updatesCommitFail.take j) catCommitFail)
             (updatesCommitFail.getD j ("", 0))).1 = .ok ()) ∧
       (commitStep wOne (applyCommits wOne (updatesCommitFail.take k) catCommitFail)
           (updatesCommitFail.getD k ("", 0))).1 = .error .productStockUpdateFailed ∧
       (commitLoop wOne updatesCommitFail catCommitFail).2.2
         = applyCommits wOne (updatesCommitFail.take k) catCommitFail) :=
  ⟨rfl, commit_fail_fast wOne updatesCommitFail catCommitFail .productStockUpdateFailed rfl⟩

/-! ## Delta-map lemmas -/

lemma setDelta_mem_keys (k : String) (v : Int) :
    ∀ (l : List (String × Int)) (pid : String),
      (pid ∈ (setDelta l k v).map Prod.fst ↔ pid ∈ l.map Prod.fst ∨ pid = k)
  | [], pid => by simp [setDelta]
  | e :: rest, pid => by
    by_cases he : e.1 = k
    · rw [setDelta, if_pos he]
      simp only [List.map_cons, List.mem_cons, he]
      tauto
    · rw [setDelta, if_neg he]
      simp only [List.map_cons, List.mem_cons]
      rw [setDelta_mem_keys k v rest pid]
      tauto

lemma setDelta_nodup (k : String) (v : Int) :
    ∀ {l : List (String × Int)}, (l.map Prod.fst).Nodup →
      ((setDelta l k v).map Prod.fst).Nodup
  | [], _ => by simp [setDelta]
  | e :: rest, h => by
    simp only [List.map_cons, List.nodup_cons] at h
    by_cases he : e.1 = k
    · rw [setDelta, if_pos he]
      simp only [List.map_cons, List.nodup_cons]
      exact ⟨by rw [← he]; exact h.1, h.2⟩
    · rw [setDelta, if_neg he]
      simp only [List.map_cons, List.nodup_cons]
      refine ⟨?_, setDelta_nodup k v h.2⟩
      rw [setDelta_mem_keys]
      push_neg
      exact ⟨h.1, he⟩

lemma mem_setDelta_elim (k : String) (v : Int) :
    ∀ {l : List (String × Int)}, (l.map Prod.fst).Nodup →
      ∀ {pr : String × Int}, pr ∈ setDelta l k v →
        pr = (k, v) ∨ (pr ∈ l ∧ pr.1 ≠ k)
  | [], _, pr, hpr => by
    rw [setDelta] at hpr
    simp only [List.mem_singleton] at hpr
    exact Or.inl hpr
  | e :: rest, h, pr, hpr => by
    simp only [List.map_cons, List.nodup_cons] at h
    by_cases he : e.1 = k
    · rw [setDelta, if_pos he] at hpr
      rcases List.mem_cons.mp hpr with h0 | h0
      · exact Or.inl h0
      · refine Or.inr ⟨List.mem_cons_of_mem e h0, ?_⟩
        intro hk
        exact h.1 (by rw [he, ← hk]; exact List.mem_map_of_mem Prod.fst h0)
    · rw [setDelta, if_neg he] at hpr
      rcases List.mem_cons.mp hpr with h0 | h0
      · exact Or.inr ⟨by rw [h0]; exact List.mem_cons_self e rest, by rw [h0]; exact he⟩
      · rcases mem_setDelta_elim k v h.2 h0 with h1 | h1
        · exact Or.inl h1
        · exact Or.inr ⟨List.mem_cons_of_mem e h1.1, h1.2⟩

lemma lookupDelta_eq_of_mem :
    ∀ {l : List (String × Int)}, (l.map Prod.fst).Nodup →
      ∀ {pr : String × Int}, pr ∈ l → lookupDelta l pr.1 = pr.2
  | [], _, pr, hpr => by simp at hpr
  | e :: rest, h, pr, hpr => by
    simp only [List.map_cons, List.nodup_cons] at h
    rcases List.mem_cons.mp hpr with h0 | h0
    · rw [h0, lookupDelta, if_pos rfl]
    · rw [lookupDelta, if_neg ?_]
      · exact lookupDelta_eq_of_mem h.2 h0
      · intro he
        exact h.1 (by rw [he]; exact List.mem_map_of_mem Prod.fst h0)

lemma lookupDelta_zero_of_not_mem :
    ∀ {l : List (String × Int)} {pid : String}, pid ∉ l.map Prod.fst →
      lookupDelta l pid = 0
  | [], _, _ => rfl
  | e :: rest, pid, h => by
    simp only [List.map_cons, List.mem_cons] at h
    push_neg at h
    rw [lookupDelta, if_neg (fun he => h.1 he.symm)]
    exact lookupDelta_zero_of_not_mem h.2

lemma sumQtyP_append (l1 l2 : List (String × Int)) (x : String) :
    sumQtyP (l1 ++ l2) x = sumQtyP l1 x + sumQtyP l2 x := by
  induction l1 with
  | nil => simp [sumQtyP]
  | cons e rest ih =>
    simp only [List.cons_append, sumQtyP, List.append_eq]
    rw [ih]
    ring

lemma sumQtyP_zero_of_not_mem :
    ∀ {l : List (String × Int)} {x : String}, x ∉ l.map Prod.fst → sumQtyP l x = 0
  | [], _, _ => rfl
  | e :: rest, x, h => by
    simp only [List.map_cons, List.mem_cons] at h
    push_neg at h
    rw [sumQtyP, if_neg (fun he => h.1 he.symm), sumQtyP_zero_of_not_mem h.2]
    ring

/-- One successful task's map update preserves coherence of the delta
map with the processed pairs. -/
lemma deltaMapFor_update {upd done : List (String × Int)}
    (hinv : DeltaMapFor upd done) (pid : String) (q : Int) :
    DeltaMapFor (mapSub upd pid q) (done ++ [(pid, q)]) := by
  obtain ⟨hnd, hmem, hval⟩ := hinv
  unfold mapSub
  refine ⟨setDelta_nodup _ _ hnd, ?_, ?_⟩
  · intro x
    rw [setDelta_mem_keys]
    simp only [List.map_append, List.map_cons, List.map_nil, List.mem_append,
      List.mem_singleton, hmem x]
  · intro pr hpr
    have hsum : ∀ x, sumQtyP (done ++ [(pid, q)]) x
        = sumQtyP done x + (if pid = x then q else 0) := by
      intro x
      rw [sumQtyP_append]
      simp [sumQtyP]
    rcases mem_setDelta_elim pid (wrap32 (lookupDelta upd pid - q)) hnd hpr with h0 | ⟨h0, hne⟩
    · rw [h0]
      show wrap32 (lookupDelta upd pid - q) = wrap32 (-sumQtyP (done ++ [(pid, q)]) (pid, q).1)
      rw [hsum]
      simp only [if_pos rfl]
      by_cases hk : pid ∈ upd.map Prod.fst
      · rcases List.mem_map.mp hk with ⟨pr0, hpr0, hfst⟩
        have hl : lookupDelta upd pid = pr0.2 := by rw [← hfst]; exact lookupDelta_eq_of_mem hnd hpr0
        have hv : pr0.2 = wrap32 (-sumQtyP done pr0.1) := hval pr0 hpr0
        rw [hl, hv, hfst, wrap32_wrap_sub]
        simp
        ring_nf
      · rw [lookupDelta_zero_of_not_mem hk,
            sumQtyP_zero_of_not_mem (fun hc => hk ((hmem pid).mpr hc))]
        simp
    · rw [hval pr h0, hsum]
      rw [if_neg (fun hc => hne hc.symm)]
      simp

lemma fanOutTask_stockInv {w : World} {st : ReadState} (item : OrderItem)
    (h : DeltaMapFor st.stockUpdates (st.processedItems.map keyQty)) :
    DeltaMapFor (fanOutTask w st item).stockUpdates
      ((fanOutTask w st item).processedItems.map keyQty) := by
  by_cases hs : st.firstError.isSome
  · rw [fanOutTask_error_frozen item hs]; exact h
  · have hnone : st.firstError = none := by
      simpa [Option.not_isSome_iff_eq_none] using hs
    rcases fanOutTask_cases w st item hnone with ⟨f, _, heq⟩ | ⟨p, _, _, heq⟩ | ⟨p, _, _, heq⟩
    · rw [heq]; exact h
    · rw [heq]; exact h
    · rw [heq]
      show DeltaMapFor (mapSub st.stockUpdates p.id item.quantity)
        ((st.processedItems ++
          ([{ productID := p.id, quantity := item.quantity, priceAtPurchase := p.price }] :
            List OrderItem)).map keyQty)
      rw [List.map_append]
      exact deltaMapFor_update h p.id item.quantity

lemma fanOutLoop_stockInv {w : World} :
    ∀ {items : List OrderItem} {st : ReadState},
      DeltaMapFor st.stockUpdates (st.processedItems.map keyQty) →
      DeltaMapFor (fanOutLoop w items st).1.stockUpdates
        ((fanOutLoop w items st).1.processedItems.map keyQty)
  | [], _, h => h
  | item :: rest, st, h => by
    rw [fanOutLoop]
    split
    · exact h
    · exact fanOutLoop_stockInv (fanOutTask_stockInv item ⟨h.1, h.2.1, h.2.2⟩)

/-- A clean (no early return, no recorded error) fan-out run processes
exactly the requested items, in order, with their identifiers and
quantities. -/
lemma fanOutLoop_processed {w : World} :
    ∀ {items : List OrderItem} {st : ReadState},
      (fanOutLoop w items st).2 = false →
      (fanOutLoop w items st).1.firstError = none →
      (fanOutLoop w items st).1.processedItems.map keyQty
        = st.processedItems.map keyQty ++ items.map keyQty
  | [], st, _, _ => by simp [fanOutLoop]
  | item :: rest, st, hearly, hnone => by
    rw [fanOutLoop] at hearly hnone ⊢
    by_cases hq : item.quantity ≤ 0
    · rw [if_pos hq] at hearly
      simp at hearly
    · rw [if_neg hq] at hearly hnone ⊢
      have hnone2 : (fanOutTask w { st with tasksLaunched := st.tasksLaunched + 1 }
          item).firstError = none := fanOutLoop_none_of_none hnone
      have hnone1 : ({ st with tasksLaunched := st.tasksLaunched + 1 } :
          ReadState).firstError = none := fanOutTask_none_of_none hnone2
      obtain ⟨p, hgp, _, heq⟩ := fanOutTask_success hnone1 hnone2
      rw [heq] at hearly hnone ⊢
      rw [fanOutLoop_processed hearly hnone]
      have hid : p.id = item.productID := getProduct_ok_id hgp
      simp [keyQty, hid]

/-- C3 (amended): a `CreateOrder` call that reaches the commit phase and
whose stock-commit calls all succeed issues exactly one commit call per
distinct product identifier of the request (duplicates collapse), with
delta equal to the `int32`-wrapped negated sum of the quantities
requested for that product. -/
theorem commit_one_call_per_product
    (w : World) (uid : String) (items : List OrderItem)
    (h1 : uid ≠ "") (h2 : items ≠ []) (h3 : w.userAnswer = none)
    (h4 : ∀ it ∈ items, 0 < it.quantity)
    (h5 : (fanOutLoop w items initReadState).1.firstError = none)
    (h6 : (commitLoop w (fanOutLoop w items initReadState).1.stockUpdates w.catalog).1
            = .ok ()) :
    (((CreateOrder w uid items).trace.updateStockCalls.map Prod.fst).Nodup) ∧
    (∀ pid, pid ∈ (CreateOrder w uid items).trace.updateStockCalls.map Prod.fst ↔
       pid ∈ items.map fun it => it.productID) ∧
    (∀ pr ∈ (CreateOrder w uid items).trace.updateStockCalls,
       pr.2 = wrap32 (-(sumQtyP (items.map keyQty) pr.1))) := by
  have hearly : (fanOutLoop w items initReadState).2 = false := fanOutLoop_no_early _ h4
  have hproc : (fanOutLoop w items initReadState).1.processedItems.map keyQty
      = items.map keyQty := by
    rw [fanOutLoop_processed hearly h5]
    simp [initReadState]
  have hlen : (fanOutLoop w items initReadState).1.processedItems.length = items.length := by
    have := congrArg List.length hproc
    simpa using this
  have hcalls : (CreateOrder w uid items).trace.updateStockCalls
      = (commitLoop w (fanOutLoop w items initReadState).1.stockUpdates w.catalog).2.1 := by
    rw [createOrder_valid_user h1 h2 h3]
    simp only [afterValidation]
    rw [hearly, if_neg (by decide), h5]
    simp only [commitAndPersist]
    rw [if_neg (by simp [hlen])]
    repeat' split
    all_goals rfl
  have hinv : DeltaMapFor (fanOutLoop w items initReadState).1.stockUpdates
      ((fanOutLoop w items initReadState).1.processedItems.map keyQty) :=
    fanOutLoop_stockInv (by
      refine ⟨by simp [initReadState], ?_, ?_⟩
      · intro pid; simp [initReadState]
      · intro pr hpr; simp [initReadState] at hpr)
  rw [hproc] at hinv
  rw [hcalls, commitLoop_ok_calls _ _ h6]
  refine ⟨hinv.1, ?_, hinv.2.2⟩
  intro pid
  rw [hinv.2.1 pid]
  simp [keyQty]

/-- C3 counterexample: two line items of quantity `2^30 + 1` for the
same product make the `int32` delta accumulator wrap: one commit call is
issued for the product, but its delta `2147483646` is not the negated
quantity sum `-2147483650`. -/
theorem commit_delta_wraps_not_negated_sum :
    (CreateOrder wBigStock "u" itemsBigQty).trace.updateStockCalls = [("p", 2147483646)] ∧
    sumQtyP (itemsBigQty.map keyQty) "p" = 2147483650 ∧
    (2147483646 : Int) ≠ -2147483650 :=
  ⟨rfl, rfl, by decide⟩

/-- C3 witness: the amended claim at a concrete three-item request with
a duplicated product. -/
theorem commit_one_call_per_product_witness :
    ("u" : String) ≠ "" ∧ itemsTwo ≠ [] ∧ wTwo.userAnswer = none ∧
    (∀ it ∈ itemsTwo, 0 < it.quantity) ∧
    (fanOutLoop wTwo itemsTwo initReadState).1.firstError = none ∧
    (commitLoop wTwo (fanOutLoop wTwo itemsTwo initReadState).1.stockUpdates
       wTwo.catalog).1 = .ok () ∧
    ((((CreateOrder wTwo "u" itemsTwo).trace.updateStockCalls.map Prod.fst).Nodup) ∧
     (∀ pid, pid ∈ (CreateOrder wTwo "u" itemsTwo).trace.updateStockCalls.map Prod.fst ↔
        pid ∈ itemsTwo.map fun it => it.productID) ∧
     (∀ pr ∈ (CreateOrder wTwo "u" itemsTwo).trace.updateStockCalls,
        pr.2 = wrap32 (-(sumQtyP (itemsTwo.map keyQty) pr.1)))) :=
  ⟨by decide, by decide, rfl, by decide, rfl, rfl,
   commit_one_call_per_product wTwo "u" itemsTwo
     (by decide) (by decide) rfl (by decide) rfl rfl⟩

end MicroGo
